import Mathlib

/-!
# Verification of the "Smart Favorite Lay" strategy core

A shallow embedding of `backend/app/services/strategy.py` and the parts of
`backend/app/models/schemas.py` it depends on.

Modelling conventions:
* Python floats are modelled as exact rationals (`ℚ`); `round(x, 2)`
  (round-half-to-even) is `round2`.
* Python division raises `ZeroDivisionError` on a zero denominator; divisions
  that can actually raise (no guard in the source) are modelled with `divE`
  inside `Except Unit`.  Divisions that the source guards with an explicit
  `if denominator > 0 ... else 0` cannot raise and stay pure.
* `random.random()` draws are supplied explicitly: the backtest takes a
  stream `rand : ℕ → ℚ` and the k-th simulated bet consumes draw `rand k`
  (each bet consumes exactly one draw from Python's global source).
* Reason strings are modelled by the inductive `Reason`; dynamically
  formatted reasons carry the interpolated values as constructor arguments.
* The Sharpe ratio needs a square root, hence real numbers; `np.std` of the
  return series is `Real.sqrt` of its population variance.
-/

namespace ChimeraLay

/-- Python enum `schemas.RaceType`. -/
inductive RaceType
  | flat
  | hurdle
  | chase
  | national_hunt_flat
  | hunters_chase
deriving DecidableEq

/-- Python enum `schemas.GoingCondition`. -/
inductive GoingCondition
  | firm
  | good_to_firm
  | good
  | good_to_soft
  | soft
  | heavy
  | standard
  | slow
deriving DecidableEq

/-- Python enum `schemas.Country`. -/
inductive Country
  | UK
  | IRE
deriving DecidableEq

/-- Python enum `schemas.BetStatus`. -/
inductive BetStatus
  | pending
  | matched
  | settled
  | cancelled
  | voided
deriving DecidableEq

/-- Python enum `schemas.BetResult`. -/
inductive BetResult
  | won
  | lost
  | void
deriving DecidableEq

/-- Python model `schemas.Race` (incl. `RaceBase`).  The `race_date` string has the
shape `"YYYY-MM-DD"`, `race_time` the shape `"HH:MM"`. -/
structure Race where
  event_id : String
  market_id : String
  event_name : String
  course_name : String
  race_time : String
  race_date : String
  race_type : RaceType
  race_class : ℤ
  distance : String
  going : GoingCondition
  number_of_runners : ℤ
  country : Country
  track_direction : String
  is_handicap : Bool
  id : String
deriving DecidableEq

/-- Python model `schemas.Runner` (incl. `RunnerBase`).  `bsp_odds = none` models the
Python `None`. -/
structure Runner where
  race_id : String
  selection_id : ℤ
  horse_name : String
  jockey : String
  trainer : String
  age : ℤ
  weight : String
  draw : Option ℤ
  bsp_odds : Option ℚ
  position : Option ℤ
  is_favorite : Bool
  sp : String
  id : String
deriving DecidableEq

/-- Python model `schemas.StrategyRules`.  The three adjustment dictionaries are modelled
as partial maps (`Option`-valued functions), matching Python `dict.get` /
`in` semantics. -/
structure StrategyRules where
  min_odds : ℚ
  max_odds : ℚ
  min_runners : ℤ
  max_runners : ℤ
  allowed_race_types : List RaceType
  exclude_handicaps : Bool
  handicap_stake_multiplier : ℚ
  going_adjustments : GoingCondition → Option ℚ
  track_adjustments : String → Option ℚ
  monthly_adjustments : ℕ → Option ℚ
  exclude_amateur_races : Bool
  exclude_apprentice_races : Bool

/-- Python model `schemas.StakeManagement`. -/
structure StakeManagement where
  base_stake_percent : ℚ
  max_liability_percent : ℚ
  daily_loss_limit_percent : ℚ
  weekly_loss_limit_percent : ℚ
  use_kelly_criterion : Bool
  kelly_fraction : ℚ

/-- The reason strings appended by `check_race_qualification`.  Dynamically
formatted strings carry their interpolated values. -/
inductive Reason
  | noBspOdds
  | oddsBelowMin (odds minOdds : ℚ)
  | oddsAboveMax (odds maxOdds : ℚ)
  | tooFewRunners (n minRunners : ℤ)
  | tooManyRunners (n maxRunners : ℤ)
  | raceTypeNotAllowed (t : RaceType)
  | handicapExcluded
  | allCriteriaMet
  | goingNote (g : GoingCondition)
  | figure8Note
deriving DecidableEq

/-- The tuple `(qualifies, reasons, score)` returned by
`check_race_qualification`. -/
structure QualificationResult where
  qualifies : Bool
  reasons : List Reason
  score : ℚ
deriving DecidableEq

/-- Round-half-to-even to an integer (the rounding mode of Python's
built-in `round`). -/
def roundHalfEvenInt {α : Type} [LinearOrderedField α] [FloorRing α] (x : α) : ℤ :=
  if x - (⌊x⌋ : α) < 1/2 then ⌊x⌋
  else if 1/2 < x - (⌊x⌋ : α) then ⌊x⌋ + 1
  else if ⌊x⌋ % 2 = 0 then ⌊x⌋ else ⌊x⌋ + 1

/-- Python `round(x, 2)`. -/
def round2 {α : Type} [LinearOrderedField α] [FloorRing α] (x : α) : α :=
  ((roundHalfEvenInt (100 * x) : ℤ) : α) / 100

/-- Python division, which raises `ZeroDivisionError` when the denominator
is zero. -/
def divE (a b : ℚ) : Except Unit ℚ :=
  if b = 0 then .error () else .ok (a / b)

/-- The failed checks of `StrategyService.check_race_qualification`
(strategy.py lines 52-85), in source order: each failing check records one
reason together with the penalty it subtracts from the score.  Only reached
when the favorite has quoted odds. -/
def failedChecks (rules : StrategyRules) (race : Race) (odds : ℚ) :
    List (Reason × ℚ) :=
  (if odds < rules.min_odds then [(Reason.oddsBelowMin odds rules.min_odds, 30)] else [])
  ++ (if odds > rules.max_odds then [(Reason.oddsAboveMax odds rules.max_odds, 30)] else [])
  ++ (if race.number_of_runners < rules.min_runners then
        [(Reason.tooFewRunners race.number_of_runners rules.min_runners, 25)] else [])
  ++ (if race.number_of_runners > rules.max_runners then
        [(Reason.tooManyRunners race.number_of_runners rules.max_runners, 15)] else [])
  ++ (if race.race_type ∉ rules.allowed_race_types then
        [(Reason.raceTypeNotAllowed race.race_type, 40)] else [])
  ++ (if race.is_handicap ∧ rules.exclude_handicaps then
        [(Reason.handicapExcluded, 35)] else [])

/-- The penalty reasons recorded by `check_race_qualification` before the
informational reasons are appended: the single terminal reason when the
favorite has no odds, otherwise the reasons of the failed checks. -/
def qualificationPenaltyReasons (rules : StrategyRules) (race : Race)
    (favorite : Runner) : List Reason :=
  match favorite.bsp_odds with
  | none => [Reason.noBspOdds]
  | some odds => (failedChecks rules race odds).map Prod.fst

/-- Python method `StrategyService.check_race_qualification` (strategy.py lines 33-99). -/
def check_race_qualification (rules : StrategyRules) (race : Race)
    (favorite : Runner) : QualificationResult :=
  match favorite.bsp_odds with
  | none => ⟨false, [Reason.noBspOdds], 0⟩
  | some odds =>
    let failed := failedChecks rules race odds
    let reasons := failed.map Prod.fst
    let score : ℚ := 100 - (failed.map Prod.snd).sum
    let qualifies := reasons.length == 0
    let reasons :=
      if qualifies then
        reasons ++ [Reason.allCriteriaMet]
          ++ (if race.going = GoingCondition.soft ∨ race.going = GoingCondition.heavy
              then [Reason.goingNote race.going] else [])
          ++ (if race.track_direction = "figure8" then [Reason.figure8Note] else [])
      else reasons
    ⟨qualifies, reasons, max 0 score⟩

/-- The month of a well-formed `"YYYY-MM-DD"` date string
(`datetime.strptime(race.race_date, "%Y-%m-%d").month`). -/
def dateMonth (s : String) : ℕ :=
  (((s.splitOn "-").getD 1 "").toNat?).getD 0

/-- Python method `StrategyService.calculate_stake_multiplier` (strategy.py lines 101-124). -/
def calculate_stake_multiplier (rules : StrategyRules) (race : Race) : ℚ :=
  let multiplier : ℚ := 1
  let going_adj := (rules.going_adjustments race.going).getD 1
  let multiplier := multiplier * going_adj
  let multiplier :=
    match rules.track_adjustments race.track_direction with
    | some track_adj => multiplier * track_adj
    | none => multiplier
  let race_month := dateMonth race.race_date
  let multiplier :=
    match rules.monthly_adjustments race_month with
    | some month_adj => multiplier * month_adj
    | none => multiplier
  let multiplier :=
    if race.is_handicap ∧ ¬ rules.exclude_handicaps then
      multiplier * rules.handicap_stake_multiplier
    else multiplier
  multiplier

/-- Python method `StrategyService.calculate_stake` (strategy.py lines 126-147).  The
only division is in the liability-clamp branch and is unguarded in the
source, so it is modelled with `divE`. -/
def calculate_stake (sm : StakeManagement) (bankroll odds multiplier : ℚ) :
    Except Unit (ℚ × ℚ) :=
  let base_stake := bankroll * (sm.base_stake_percent / 100) * multiplier
  let liability := base_stake * (odds - 1)
  let max_liability := bankroll * (sm.max_liability_percent / 100)
  if liability > max_liability then
    match divE max_liability (odds - 1) with
    | .error e => .error e
    | .ok s => .ok (round2 s, round2 max_liability)
  else
    .ok (round2 base_stake, round2 liability)

/-- Python model `schemas.QualifyingRace`: the Python class inherits from `Race` and is
built from `race.model_dump()` plus the derived fields; the inherited part
is modelled by composition. -/
structure QualifyingRace where
  race : Race
  favorite : Runner
  qualification_score : ℚ
  adjusted_stake_multiplier : ℚ
  suggested_stake : ℚ
  suggested_liability : ℚ
  reasons : List Reason

/-- Python method `StrategyService.evaluate_race` (strategy.py lines 149-176).  When the
race qualifies the source feeds `favorite.bsp_odds` (an `Optional[float]`)
straight into arithmetic; a `None` there would raise `TypeError`, modelled
as `.error` (unreachable, since a missing-odds favorite never qualifies). -/
def evaluate_race (rules : StrategyRules) (sm : StakeManagement) (race : Race)
    (favorite : Runner) (bankroll : ℚ) : Except Unit (Option QualifyingRace) :=
  let q := check_race_qualification rules race favorite
  if q.qualifies then
    match favorite.bsp_odds with
    | none => .error ()
    | some odds =>
      let multiplier := calculate_stake_multiplier rules race
      match calculate_stake sm bankroll odds multiplier with
      | .error e => .error e
      | .ok (stake, liability) =>
        .ok (some ⟨race, favorite, q.score, multiplier, stake, liability, q.reasons⟩)
  else
    .ok none

/-- Python method `StrategyService.simulate_bet_result` (strategy.py lines 178-195), with
the `random.random()` draw passed in explicitly. -/
def simulate_bet_result (draw : ℚ) (odds : ℚ) : BetResult :=
  let base_lay_win_prob : ℚ := 67/100
  let odds_adjustment := (odds - 2) * (2/100)
  let lay_win_prob := min (75/100) (max (55/100) (base_lay_win_prob + odds_adjustment))
  if draw < lay_win_prob then BetResult.won else BetResult.lost

/-- Python method `StrategyService.calculate_profit_loss` (strategy.py lines 197-210). -/
def calculate_profit_loss (stake liability : ℚ) (result : BetResult) : ℚ :=
  match result with
  | .won => stake
  | .lost => -liability
  | .void => 0

/-- Python model `schemas.Bet` as created by the backtest engine: `result` and
`profit_loss` (optional in the schema) are always set there, and both
timestamps are built from the race's date and time strings. -/
structure Bet where
  id : String
  race_id : String
  runner_id : String
  strategy_id : String
  bet_type : String
  odds : ℚ
  stake : ℚ
  liability : ℚ
  status : BetStatus
  result : BetResult
  profit_loss : ℚ
  placed_date : String
  placed_time : String
  race : Option Race
  runner : Option Runner

/-- Python model `schemas.DailyPerformance`. -/
structure DailyPerformance where
  date : String
  total_bets : ℕ
  won_bets : ℕ
  lost_bets : ℕ
  turnover : ℚ
  liability : ℚ
  profit_loss : ℚ
  roi : ℚ
  starting_bank : ℚ
  ending_bank : ℚ

/-- Python model `schemas.StrategyPerformance` (its Sharpe field is called `sharpe` here). -/
structure StrategyPerformance where
  strategy_id : String
  total_bets : ℕ
  won_bets : ℕ
  lost_bets : ℕ
  win_rate : ℚ
  total_turnover : ℚ
  total_liability : ℚ
  total_profit_loss : ℚ
  roi : ℚ
  max_drawdown : ℚ
  sharpe : ℝ
  daily_performance : List DailyPerformance

/-- The inner loop of `calculate_max_drawdown` (strategy.py lines 382-388):
the peak-division is unguarded in the source, hence `divE`. -/
def drawdownLoop (peak max_dd : ℚ) : List ℚ → Except Unit ℚ
  | [] => .ok max_dd
  | value :: rest =>
    let peak := if value > peak then value else peak
    match divE (peak - value) peak with
    | .error e => .error e
    | .ok d =>
      let dd := d * 100
      let max_dd := if dd > max_dd then dd else max_dd
      drawdownLoop peak max_dd rest

/-- Python function `calculate_max_drawdown` (strategy.py lines 374-390). -/
def calculate_max_drawdown (equity_curve : List ℚ) : Except Unit ℚ :=
  if equity_curve.length < 2 then .ok 0
  else
    match equity_curve with
    | [] => .ok 0
    | c :: _ =>
      match drawdownLoop c 0 equity_curve with
      | .error e => .error e
      | .ok max_dd => .ok (round2 max_dd)

/-- Python function `calculate_sharpe_ratio` (strategy.py lines 393-412).  All of its
divisions are guarded in the source (`len < 2` checks, the `stake > 0`
filter and the `std == 0` early return), so the function is total; `np.std`
is the square root of the population variance and vanishes exactly when the
variance does. -/
noncomputable def calculate_sharpe (bets : List Bet) : ℝ :=
  if bets.length < 2 then 0
  else
    let returns := (bets.filter (fun b => decide (b.stake > 0))).map
      (fun b => b.profit_loss / b.stake)
    if returns.length < 2 then 0
    else
      let mean_return : ℚ := returns.sum / returns.length
      let variance : ℚ := ((returns.map (fun r => (r - mean_return) ^ 2)).sum) / returns.length
      if variance = 0 then 0
      else
        let std_return : ℝ := Real.sqrt (variance : ℝ)
        let annualization_factor : ℝ := Real.sqrt (7 * 300)
        round2 (((mean_return : ℝ) / std_return) * annualization_factor)

/-- One entry of the `daily_results` dict: per-date totals
(strategy.py lines 297-314). -/
structure DayAgg where
  bets : ℕ
  won : ℕ
  lost : ℕ
  turnover : ℚ
  liability : ℚ
  profit_loss : ℚ

/-- The zero-initialised `daily_results[date]` entry. -/
def DayAgg.init : DayAgg := ⟨0, 0, 0, 0, 0, 0⟩

/-- The per-bet update of a day's totals (strategy.py lines 307-314). -/
def DayAgg.record (agg : DayAgg) (stake liability profit_loss : ℚ)
    (result : BetResult) : DayAgg :=
  { bets := agg.bets + 1
    won := agg.won + (if result = BetResult.won then 1 else 0)
    lost := agg.lost + (if result = BetResult.won then 0 else 1)
    turnover := agg.turnover + stake
    liability := agg.liability + liability
    profit_loss := agg.profit_loss + profit_loss }

/-- Python dict `daily_results`, keyed by date string; modelled as an
association list with unique keys.  `dailyUpdate` initialises the key when
absent and updates it in place when present. -/
def dailyUpdate (daily : List (String × DayAgg)) (date : String)
    (stake liability profit_loss : ℚ) (result : BetResult) :
    List (String × DayAgg) :=
  match daily with
  | [] => [(date, DayAgg.init.record stake liability profit_loss result)]
  | (d, agg) :: rest =>
    if d = date then (d, agg.record stake liability profit_loss result) :: rest
    else (d, agg) :: dailyUpdate rest date stake liability profit_loss result

/-- The mutable state of the backtest loop (strategy.py lines 235-237). -/
structure LoopState where
  bets : List Bet
  daily : List (String × DayAgg)
  bankroll : ℚ

/-- The body of the `for race in races` loop (strategy.py lines 246-314).
Grouping runners by `race_id` and indexing is modelled by filtering the
runner list, which preserves membership and order.  The k-th placed bet
consumes draw `rand k`. -/
def processRace (rules : StrategyRules) (sm : StakeManagement)
    (runners : List Runner) (rand : ℕ → ℚ) (race : Race) (st : LoopState) :
    Except Unit LoopState :=
  let race_runners_list := runners.filter (fun r => r.race_id = race.id)
  if race_runners_list.isEmpty then .ok st
  else
    let favorites := race_runners_list.filter (fun r => r.is_favorite)
    match favorites with
    | [] => .ok st
    | favorite :: _ =>
      match evaluate_race rules sm race favorite st.bankroll with
      | .error e => .error e
      | .ok none => .ok st
      | .ok (some qualifying_race) =>
        match favorite.bsp_odds with
        | none => .error ()
        | some odds =>
          let result := simulate_bet_result (rand st.bets.length) odds
          let profit_loss := calculate_profit_loss qualifying_race.suggested_stake
            qualifying_race.suggested_liability result
          let bankroll := st.bankroll + profit_loss
          let bet : Bet :=
            { id := "bt_" ++ toString (st.bets.length + 1)
              race_id := race.id
              runner_id := favorite.id
              strategy_id := "backtest"
              bet_type := "lay"
              odds := odds
              stake := qualifying_race.suggested_stake
              liability := qualifying_race.suggested_liability
              status := BetStatus.settled
              result := result
              profit_loss := profit_loss
              placed_date := race.race_date
              placed_time := race.race_time
              race := some race
              runner := some favorite }
          let daily := dailyUpdate st.daily race.race_date
            qualifying_race.suggested_stake qualifying_race.suggested_liability
            profit_loss result
          .ok ⟨st.bets ++ [bet], daily, bankroll⟩

/-- The full race loop of `run_backtest`. -/
def backtestLoop (rules : StrategyRules) (sm : StakeManagement)
    (runners : List Runner) (rand : ℕ → ℚ) :
    List Race → LoopState → Except Unit LoopState
  | [], st => .ok st
  | race :: rest, st =>
    match processRace rules sm runners rand race st with
    | .error e => .error e
    | .ok st' => backtestLoop rules sm runners rand rest st'

/-- The cumulative bankroll after each bet (strategy.py lines 325-329,
without the leading `initial_bankroll` element). -/
def equityTail (bank : ℚ) : List Bet → List ℚ
  | [] => []
  | b :: rest => (bank + b.profit_loss) :: equityTail (bank + b.profit_loss) rest

/-- Building the `daily_performance` list (strategy.py lines 334-354):
walk the sorted date keys, carrying `running_bank`. -/
def buildDaily (daily : List (String × DayAgg)) (running_bank : ℚ) :
    List String → List DailyPerformance
  | [] => []
  | date :: rest =>
    let day := (daily.lookup date).getD DayAgg.init
    let starting_bank := running_bank
    let ending_bank := running_bank + day.profit_loss
    { date := date
      total_bets := day.bets
      won_bets := day.won
      lost_bets := day.lost
      turnover := day.turnover
      liability := day.liability
      profit_loss := day.profit_loss
      roi := if day.turnover > 0 then day.profit_loss / day.turnover * 100 else 0
      starting_bank := starting_bank
      ending_bank := ending_bank } :: buildDaily daily ending_bank rest

/-- The aggregation block of `run_backtest` (strategy.py lines 316-369,
drawdown already computed): totals, guarded win rate and ROI, the sorted
`daily_performance` list (`sorted(daily_results.keys())` sorts the date
strings). -/
noncomputable def aggregatePerformance (initial_bankroll : ℚ) (st : LoopState)
    (max_drawdown : ℚ) : StrategyPerformance :=
  let bets := st.bets
  let total_bets := bets.length
  let won_bets := (bets.filter (fun b => b.result = BetResult.won)).length
  let lost_bets := total_bets - won_bets
  let total_turnover := (bets.map (fun b => b.stake)).sum
  let total_liability := (bets.map (fun b => b.liability)).sum
  let total_pl := st.bankroll - initial_bankroll
  let sorted_dates := List.insertionSort (· ≤ ·) (st.daily.map Prod.fst)
  let daily_performance := buildDaily st.daily initial_bankroll sorted_dates
  { strategy_id := "backtest"
    total_bets := total_bets
    won_bets := won_bets
    lost_bets := lost_bets
    win_rate := if total_bets > 0 then (won_bets : ℚ) / (total_bets : ℚ) * 100 else 0
    total_turnover := total_turnover
    total_liability := total_liability
    total_profit_loss := total_pl
    roi := if total_turnover > 0 then total_pl / total_turnover * 100 else 0
    max_drawdown := max_drawdown
    sharpe := calculate_sharpe bets
    daily_performance := daily_performance }

/-- Python function `run_backtest` (strategy.py lines 213-371): the race loop, then the
drawdown over the equity curve (list headed by the initial bankroll), then
the aggregation. -/
noncomputable def run_backtest (races : List Race) (runners : List Runner)
    (strategy_rules : StrategyRules) (stake_management : StakeManagement)
    (initial_bankroll : ℚ) (rand : ℕ → ℚ) :
    Except Unit (List Bet × StrategyPerformance) :=
  match backtestLoop strategy_rules stake_management runners rand races
      ⟨[], [], initial_bankroll⟩ with
  | .error e => .error e
  | .ok st =>
    match calculate_max_drawdown
        (initial_bankroll :: equityTail initial_bankroll st.bets) with
    | .error e => .error e
    | .ok max_drawdown =>
      .ok (st.bets, aggregatePerformance initial_bankroll st max_drawdown)

/-! ## Concrete instances and spec-side definitions used by the theorems -/

/-- The default `StakeManagement` configuration of the schema
(`base_stake_percent = 0.5`, `max_liability_percent = 2.0`, loss limits 5/10,
Kelly flag and fraction 0.25). -/
def smDefault : StakeManagement := ⟨1/2, 2, 5, 10, true, 1/4⟩

/-- A concrete qualifying configuration: a non-handicap flat race with 8
runners whose favorite has BSP odds 3 under the schema's default rule
values. -/
def rulesEx : StrategyRules where
  min_odds := 2
  max_odds := 9/2
  min_runners := 6
  max_runners := 20
  allowed_race_types := [RaceType.flat, RaceType.hurdle, RaceType.chase,
    RaceType.national_hunt_flat]
  exclude_handicaps := false
  handicap_stake_multiplier := 7/10
  going_adjustments := fun _ => none
  track_adjustments := fun _ => none
  monthly_adjustments := fun _ => none
  exclude_amateur_races := true
  exclude_apprentice_races := true

def raceEx : Race where
  event_id := "E1"
  market_id := "M1"
  event_name := "Ascot 14:00"
  course_name := "Ascot"
  race_time := "14:00"
  race_date := "2024-06-01"
  race_type := RaceType.flat
  race_class := 1
  distance := "1m"
  going := GoingCondition.good
  number_of_runners := 8
  country := Country.UK
  track_direction := "left"
  is_handicap := false
  id := "R1"

def favoriteEx : Runner where
  race_id := "R1"
  selection_id := 1
  horse_name := "Alpha"
  jockey := "J"
  trainer := "T"
  age := 4
  weight := "9-0"
  draw := none
  bsp_odds := some 3
  position := none
  is_favorite := true
  sp := "2/1"
  id := "RN1"

def favoriteNoOdds : Runner where
  race_id := "R1"
  selection_id := 2
  horse_name := "Beta"
  jockey := "J2"
  trainer := "T2"
  age := 5
  weight := "9-1"
  draw := none
  bsp_odds := none
  position := none
  is_favorite := true
  sp := "5/2"
  id := "RN2"

/-- A schema-valid rules configuration with `handicap_stake_multiplier = 0`
(allowed by the schema field bound `ge=0.0`) and `exclude_handicaps = false`. -/
def rulesHandicapZero : StrategyRules where
  min_odds := 2
  max_odds := 9/2
  min_runners := 6
  max_runners := 20
  allowed_race_types := [RaceType.flat, RaceType.hurdle, RaceType.chase,
    RaceType.national_hunt_flat]
  exclude_handicaps := false
  handicap_stake_multiplier := 0
  going_adjustments := fun _ => none
  track_adjustments := fun _ => none
  monthly_adjustments := fun _ => none
  exclude_amateur_races := true
  exclude_apprentice_races := true

def raceHandicap : Race where
  event_id := "E2"
  market_id := "M2"
  event_name := "York 15:00"
  course_name := "York"
  race_time := "15:00"
  race_date := "2024-06-02"
  race_type := RaceType.flat
  race_class := 2
  distance := "7f"
  going := GoingCondition.good
  number_of_runners := 10
  country := Country.UK
  track_direction := "left"
  is_handicap := true
  id := "R2"

/-- The running peaks of an equity curve, following the spec's "track
running peak" wording. -/
def runningPeaks (peak : ℚ) : List ℚ → List ℚ
  | [] => []
  | v :: rest => max peak v :: runningPeaks (max peak v) rest

/-- The drawdown computation as the spec words it: at each point compute
`(peak - value) / peak * 100` against the running peak, report the maximum
such value rounded to 2 decimals, and 0 for curves shorter than 2. -/
def drawdownSpec (curve : List ℚ) : ℚ :=
  if curve.length < 2 then 0
  else
    match curve with
    | [] => 0
    | c :: _ =>
      round2 ((List.zipWith (fun p v => (p - v) / p * 100)
        (runningPeaks c curve) curve).foldl max 0)

/-- The favorite the engine selects for a race: the first favorite-flagged
runner among the race's runners (strategy.py lines 250-257). -/
def selectedFavorite (runners : List Runner) (race : Race) : Option Runner :=
  ((runners.filter (fun r => r.race_id = race.id)).filter
    (fun r => r.is_favorite)).head?

/-- The performance record of an empty backtest run, used as the concrete
instance for the C5 and C8 witnesses. -/
noncomputable def perfEmpty : StrategyPerformance :=
  aggregatePerformance 1000 ⟨[], [], 1000⟩ 0

/-! ## Basic properties of the rounding function -/

lemma roundHalfEvenInt_le (y : ℚ) : (roundHalfEvenInt y : ℚ) ≤ y + 1/2 := by
  have hfl : (⌊y⌋ : ℚ) ≤ y := Int.floor_le y
  unfold roundHalfEvenInt
  split_ifs with h1 h2 h3
  · linarith
  · push_cast
    linarith
  · linarith
  · push_cast
    have h2' : y - (⌊y⌋ : ℚ) ≤ 1/2 := le_of_not_lt h2
    linarith

lemma round2_le (x : ℚ) : round2 x ≤ x + 1/200 := by
  have h := roundHalfEvenInt_le (100 * x)
  unfold round2
  linarith

lemma round2_intCast (n : ℤ) : round2 ((n : ℚ)) = (n : ℚ) := by
  unfold round2 roundHalfEvenInt
  have hcast : (100 : ℚ) * (n : ℚ) = ((100 * n : ℤ) : ℚ) := by push_cast; ring
  rw [hcast, Int.floor_intCast]
  have hfrac : ((100 * n : ℤ) : ℚ) - ((100 * n : ℤ) : ℚ) = 0 := sub_self _
  rw [if_pos (by rw [hfrac]; norm_num)]
  push_cast
  ring

lemma round2_zero : round2 (0 : ℚ) = 0 := by
  simpa using round2_intCast 0

/-! ## C1: the liability cap of `calculate_stake` -/

/-- C1.  For every bankroll, odds > 1, multiplier and stake-management
configuration, `calculate_stake` returns a pair `(stake, liability)` with
`liability ≤ bankroll * max_liability_percent/100 + 1/200` (the maximal
perturbation of rounding to 2 decimal places), and when the uncapped
liability exceeds that ceiling the returned stake is
`round2 (max_liability / (odds - 1))` and the returned liability is
`round2 max_liability`. -/
theorem claim_C1 (sm : StakeManagement) (bankroll odds multiplier : ℚ)
    (hodds : 1 < odds) :
    ∃ stake liability,
      calculate_stake sm bankroll odds multiplier = .ok (stake, liability) ∧
      liability ≤ bankroll * (sm.max_liability_percent / 100) + 1/200 ∧
      (bankroll * (sm.base_stake_percent / 100) * multiplier * (odds - 1) >
          bankroll * (sm.max_liability_percent / 100) →
        stake = round2 (bankroll * (sm.max_liability_percent / 100) / (odds - 1)) ∧
        liability = round2 (bankroll * (sm.max_liability_percent / 100))) := by
  have hne : odds - 1 ≠ 0 := sub_ne_zero.mpr (ne_of_gt hodds)
  unfold calculate_stake
  by_cases hclamp : bankroll * (sm.base_stake_percent / 100) * multiplier * (odds - 1) >
      bankroll * (sm.max_liability_percent / 100)
  · rw [if_pos hclamp]
    unfold divE
    rw [if_neg hne]
    refine ⟨_, _, rfl, ?_, fun _ => ⟨rfl, rfl⟩⟩
    exact round2_le _
  · rw [if_neg hclamp]
    refine ⟨_, _, rfl, ?_, fun hc => absurd hc hclamp⟩
    have hle : bankroll * (sm.base_stake_percent / 100) * multiplier * (odds - 1) ≤
        bankroll * (sm.max_liability_percent / 100) := le_of_not_lt hclamp
    have := round2_le (bankroll * (sm.base_stake_percent / 100) * multiplier * (odds - 1))
    linarith

/-- Witness for C1 at a concrete input. -/
theorem claim_C1_witness :
    ∃ stake liability,
      calculate_stake smDefault 1000 3 1 = .ok (stake, liability) ∧
      liability ≤ 1000 * (smDefault.max_liability_percent / 100) + 1/200 ∧
      (1000 * (smDefault.base_stake_percent / 100) * 1 * (3 - 1) >
          1000 * (smDefault.max_liability_percent / 100) →
        stake = round2 (1000 * (smDefault.max_liability_percent / 100) / (3 - 1)) ∧
        liability = round2 (1000 * (smDefault.max_liability_percent / 100))) :=
  claim_C1 smDefault 1000 3 1 (by norm_num)

/-! ## C2: qualification iff no penalty reason, and the coupling invariant -/

/-- C2.  `check_race_qualification` returns `qualifies = true` iff zero
penalty reasons were recorded, and whenever it returns `qualifies = true`
the score is exactly 100 and the first reason is "All criteria met". -/
theorem claim_C2 (rules : StrategyRules) (race : Race) (favorite : Runner) :
    ((check_race_qualification rules race favorite).qualifies = true ↔
      qualificationPenaltyReasons rules race favorite = []) ∧
    ((check_race_qualification rules race favorite).qualifies = true →
      (check_race_qualification rules race favorite).score = 100 ∧
      (check_race_qualification rules race favorite).reasons.head? =
        some Reason.allCriteriaMet) := by
  cases ho : favorite.bsp_odds with
  | none =>
    simp [check_race_qualification, qualificationPenaltyReasons, ho]
  | some odds =>
    constructor
    · simp [check_race_qualification, qualificationPenaltyReasons, ho,
        List.length_eq_zero]
    · intro hq
      have hempty : failedChecks rules race odds = [] := by
        simp only [check_race_qualification, ho] at hq
        simp only [beq_iff_eq, List.length_eq_zero, List.map_eq_nil_iff] at hq
        exact hq
      simp [check_race_qualification, ho, hempty]

/-- Witness for C2: at the concrete qualifying input the implication fires,
giving score 100 and the head reason "All criteria met". -/
theorem claim_C2_witness :
    (check_race_qualification rulesEx raceEx favoriteEx).score = 100 ∧
    (check_race_qualification rulesEx raceEx favoriteEx).reasons.head? =
      some Reason.allCriteriaMet :=
  (claim_C2 rulesEx raceEx favoriteEx).2 (by
    norm_num [check_race_qualification, failedChecks, rulesEx, raceEx, favoriteEx])

/-! ## C3: the missing-odds check is terminal -/

/-- C3.  When the favorite's `bsp_odds` is `None`, the evaluator returns
`qualifies = false`, score 0, and a reasons list whose only entry is
"No BSP odds available"; no other check contributes to the result. -/
theorem claim_C3 (rules : StrategyRules) (race : Race) (favorite : Runner)
    (h : favorite.bsp_odds = none) :
    check_race_qualification rules race favorite =
      ⟨false, [Reason.noBspOdds], 0⟩ := by
  simp [check_race_qualification, h]

/-- Witness for C3 at a concrete runner without quoted odds. -/
theorem claim_C3_witness :
    check_race_qualification rulesEx raceEx favoriteNoOdds =
      ⟨false, [Reason.noBspOdds], 0⟩ :=
  claim_C3 rulesEx raceEx favoriteNoOdds rfl

/-! ## C4: sizing against odds ≤ 1 does not fail loudly -/

/-- C4 counterexample.  Calling `calculate_stake` with `odds = 1` (and
the schema's default stake management, bankroll 1000, multiplier 1) does not
signal any error: it returns the pair `(5, 0)`.  The source performs no
precondition check on the odds. -/
theorem claim_C4_counterexample :
    calculate_stake smDefault 1000 1 1 = .ok (5, 0) := by
  have h5 : round2 ((5 : ℚ)) = 5 := by simpa using round2_intCast 5
  norm_num [calculate_stake, smDefault, h5, round2_zero]

/-- C4 amended.  `calculate_stake` performs no validation of its odds
argument: for `odds ≤ 1` with nonnegative bankroll, multiplier and percent
parameters it silently returns the (rounded) unclamped pair — whose
liability is nonpositive — instead of signalling an
InvalidConfiguration/PreconditionViolation error.  (The only possible
failure is an actual `ZeroDivisionError`, when `odds = 1` and the clamp
branch is entered, which the sign hypotheses exclude.) -/
theorem claim_C4_amended (sm : StakeManagement) (bankroll odds multiplier : ℚ)
    (hb : 0 ≤ bankroll) (hm : 0 ≤ multiplier)
    (hbs : 0 ≤ sm.base_stake_percent) (hml : 0 ≤ sm.max_liability_percent)
    (ho : odds ≤ 1) :
    calculate_stake sm bankroll odds multiplier =
      .ok (round2 (bankroll * (sm.base_stake_percent / 100) * multiplier),
        round2 (bankroll * (sm.base_stake_percent / 100) * multiplier * (odds - 1))) := by
  have hbase : 0 ≤ bankroll * (sm.base_stake_percent / 100) * multiplier := by positivity
  have hmaxl : 0 ≤ bankroll * (sm.max_liability_percent / 100) := by positivity
  have hliab : bankroll * (sm.base_stake_percent / 100) * multiplier * (odds - 1) ≤ 0 :=
    mul_nonpos_of_nonneg_of_nonpos hbase (by linarith)
  unfold calculate_stake
  rw [if_neg (by push_neg; linarith)]

/-- Witness for C4's amended statement at a concrete input. -/
theorem claim_C4_amended_witness :
    calculate_stake smDefault 1000 (1/2) 1 =
      .ok (round2 (1000 * (smDefault.base_stake_percent / 100) * 1),
        round2 (1000 * (smDefault.base_stake_percent / 100) * 1 * (1/2 - 1))) :=
  claim_C4_amended smDefault 1000 (1/2) 1 (by norm_num) (by norm_num)
    (by norm_num [smDefault]) (by norm_num [smDefault]) (by norm_num)

/-! ## C6: the stake multiplier is a product of four factors -/

/-- The stake multiplier equals the product of the going, track, month and
handicap factors (each defaulting to 1). -/
lemma calculate_stake_multiplier_eq (rules : StrategyRules) (race : Race) :
    calculate_stake_multiplier rules race =
      (rules.going_adjustments race.going).getD 1 *
      (rules.track_adjustments race.track_direction).getD 1 *
      (rules.monthly_adjustments (dateMonth race.race_date)).getD 1 *
      (if race.is_handicap ∧ ¬ rules.exclude_handicaps then
        rules.handicap_stake_multiplier else 1) := by
  unfold calculate_stake_multiplier
  cases hgo : rules.going_adjustments race.going <;>
    cases htr : rules.track_adjustments race.track_direction <;>
    cases hmo : rules.monthly_adjustments (dateMonth race.race_date) <;>
    split_ifs <;> simp [Option.getD, hgo, htr, hmo]

/-- C6 counterexample.  With a schema-valid configuration
(`handicap_stake_multiplier = 0`, allowed by the field bound `ge=0.0`,
`exclude_handicaps = false`) and a handicap race `raceHandicap`, the
multiplier is 0 — not strictly greater than 0 as the claim states. -/
theorem claim_C6_counterexample :
    ¬ (0 < calculate_stake_multiplier rulesHandicapZero raceHandicap) := by
  norm_num [calculate_stake_multiplier, rulesHandicapZero, raceHandicap]

/-- C6 amended.  The multiplier always equals the four-factor product
`going_table[going] (default 1) * track_table[direction] (default 1) *
month_table[month] (default 1) * (handicap multiplier when applicable)`,
and it is strictly positive provided every applied factor is strictly
positive (the schema allows `handicap_stake_multiplier = 0`, which makes
the multiplier 0 when applied). -/
theorem claim_C6_amended (rules : StrategyRules) (race : Race)
    (hg : 0 < (rules.going_adjustments race.going).getD 1)
    (ht : 0 < (rules.track_adjustments race.track_direction).getD 1)
    (hmo : 0 < (rules.monthly_adjustments (dateMonth race.race_date)).getD 1)
    (hh : race.is_handicap = true → rules.exclude_handicaps = false →
      0 < rules.handicap_stake_multiplier) :
    calculate_stake_multiplier rules race =
      (rules.going_adjustments race.going).getD 1 *
      (rules.track_adjustments race.track_direction).getD 1 *
      (rules.monthly_adjustments (dateMonth race.race_date)).getD 1 *
      (if race.is_handicap ∧ ¬ rules.exclude_handicaps then
        rules.handicap_stake_multiplier else 1) ∧
    0 < calculate_stake_multiplier rules race := by
  refine ⟨calculate_stake_multiplier_eq rules race, ?_⟩
  rw [calculate_stake_multiplier_eq rules race]
  refine mul_pos (mul_pos (mul_pos hg ht) hmo) ?_
  split_ifs with hif
  · exact hh hif.1 (by simpa using hif.2)
  · norm_num

/-- Witness for C6's amended statement at a concrete input. -/
theorem claim_C6_amended_witness :
    calculate_stake_multiplier rulesEx raceHandicap =
      (rulesEx.going_adjustments raceHandicap.going).getD 1 *
      (rulesEx.track_adjustments raceHandicap.track_direction).getD 1 *
      (rulesEx.monthly_adjustments (dateMonth raceHandicap.race_date)).getD 1 *
      (if raceHandicap.is_handicap ∧ ¬ rulesEx.exclude_handicaps then
        rulesEx.handicap_stake_multiplier else 1) ∧
    0 < calculate_stake_multiplier rulesEx raceHandicap :=
  claim_C6_amended rulesEx raceHandicap (by norm_num [rulesEx])
    (by norm_num [rulesEx]) (by norm_num [rulesEx])
    (fun _ _ => by norm_num [rulesEx])

/-! ## C10: inside the engine, stake sizing only ever sees odds > 1 -/

/-- A qualifying favorite has quoted odds at least `min_odds`: the
missing-odds check and the below-minimum check both disqualify. -/
lemma qualifies_odds_ge_min (rules : StrategyRules) (race : Race)
    (favorite : Runner)
    (hq : (check_race_qualification rules race favorite).qualifies = true) :
    ∃ odds, favorite.bsp_odds = some odds ∧ rules.min_odds ≤ odds := by
  cases ho : favorite.bsp_odds with
  | none => simp [check_race_qualification, ho] at hq
  | some odds =>
    refine ⟨odds, rfl, ?_⟩
    by_cases hlt : odds < rules.min_odds
    · simp [check_race_qualification, ho, failedChecks, hlt] at hq
    · exact le_of_not_lt hlt

/-- C10.  Under any schema-valid rules (`min_odds ≥ 1.01`), whenever
qualification succeeds the favorite's odds are quoted and exceed 1, the
engine's sizing path `evaluate_race` cannot raise (it returns
`.ok (some _)`), and `calculate_stake` at those odds returns a pair for
every bankroll and multiplier — the division by `odds - 1` is
well-defined. -/
theorem claim_C10 (rules : StrategyRules) (sm : StakeManagement) (race : Race)
    (favorite : Runner) (hmin : 101/100 ≤ rules.min_odds)
    (hq : (check_race_qualification rules race favorite).qualifies = true) :
    ∃ odds, favorite.bsp_odds = some odds ∧ 1 < odds ∧
      (∀ bankroll multiplier, ∃ p, calculate_stake sm bankroll odds multiplier = .ok p) ∧
      (∀ bankroll, ∃ r, evaluate_race rules sm race favorite bankroll = .ok (some r)) := by
  obtain ⟨odds, ho, hge⟩ := qualifies_odds_ge_min rules race favorite hq
  have hodds : 1 < odds := by linarith
  have hne : odds - 1 ≠ 0 := sub_ne_zero.mpr (ne_of_gt hodds)
  have hstake : ∀ bankroll multiplier, ∃ p,
      calculate_stake sm bankroll odds multiplier = .ok p := by
    intro bankroll multiplier
    simp only [calculate_stake, divE]
    split_ifs with h1
    · exact ⟨_, rfl⟩
    · exact ⟨_, rfl⟩
  refine ⟨odds, ho, hodds, hstake, ?_⟩
  intro bankroll
  obtain ⟨⟨stake, liability⟩, hp⟩ :=
    hstake bankroll (calculate_stake_multiplier rules race)
  simp only [evaluate_race, hq, ho, hp, if_true]
  exact ⟨_, rfl⟩

/-- Witness for C10 at the concrete qualifying configuration. -/
theorem claim_C10_witness :
    ∃ odds, favoriteEx.bsp_odds = some odds ∧ 1 < odds ∧
      (∀ bankroll multiplier, ∃ p,
        calculate_stake smDefault bankroll odds multiplier = .ok p) ∧
      (∀ bankroll, ∃ r,
        evaluate_race rulesEx smDefault raceEx favoriteEx bankroll = .ok (some r)) :=
  claim_C10 rulesEx smDefault raceEx favoriteEx (by norm_num [rulesEx])
    (by norm_num [check_race_qualification, failedChecks, rulesEx, raceEx, favoriteEx])

/-! ## C7 and C5: the drawdown computation -/

lemma if_gt_eq_max (a b : ℚ) : (if b > a then b else a) = max a b := by
  rcases le_or_lt b a with hle | hlt
  · rw [if_neg (not_lt.mpr hle), max_eq_left hle]
  · rw [if_pos hlt, max_eq_right hlt.le]

/-- With a positive starting peak the drawdown loop never divides by zero
and computes the fold of the per-point drawdowns. -/
lemma drawdownLoop_eq (l : List ℚ) : ∀ peak max_dd : ℚ, 0 < peak →
    drawdownLoop peak max_dd l =
      .ok ((List.zipWith (fun p v => (p - v) / p * 100)
        (runningPeaks peak l) l).foldl max max_dd) := by
  induction l with
  | nil =>
    intro peak max_dd _
    simp [drawdownLoop, runningPeaks]
  | cons v rest ih =>
    intro peak max_dd hpeak
    have hpos : 0 < max peak v := lt_of_lt_of_le hpeak (le_max_left _ _)
    simp only [drawdownLoop, if_gt_eq_max, divE, if_neg hpos.ne',
      runningPeaks, List.zipWith_cons_cons, List.foldl_cons]
    rw [ih (max peak v) _ hpos]

/-- A strictly increasing curve above a positive peak yields drawdown 0 at
every step. -/
lemma drawdownLoop_chain (l : List ℚ) : ∀ peak : ℚ, 0 < peak →
    List.Chain (· < ·) peak l → drawdownLoop peak 0 l = .ok 0 := by
  induction l with
  | nil =>
    intro peak _ _
    simp [drawdownLoop]
  | cons v rest ih =>
    intro peak hpeak hchain
    rcases hchain with _ | ⟨hlt, hrest⟩
    have hv : 0 < v := lt_trans hpeak hlt
    have hmax : max peak v = v := max_eq_right hlt.le
    simp only [drawdownLoop, if_gt_eq_max, hmax, divE, if_neg hv.ne', sub_self,
      zero_div, zero_mul, gt_iff_lt, lt_self_iff_false, if_false]
    exact ih v hv hrest

/-- Short curves return 0 with no division at all. -/
lemma calculate_max_drawdown_short (curve : List ℚ) (h : curve.length < 2) :
    calculate_max_drawdown curve = .ok 0 := by
  unfold calculate_max_drawdown
  rw [if_pos h]

/-- With a positive first element the source drawdown equals the
spec-worded drawdown (and in particular never raises). -/
lemma calculate_max_drawdown_eq_spec (c : ℚ) (rest : List ℚ) (h : 0 < c) :
    calculate_max_drawdown (c :: rest) = .ok (drawdownSpec (c :: rest)) := by
  unfold calculate_max_drawdown drawdownSpec
  by_cases hlen : (c :: rest).length < 2
  · rw [if_pos hlen, if_pos hlen]
  · rw [if_neg hlen, if_neg hlen]
    simp only [drawdownLoop_eq (c :: rest) c 0 h]

/-- C7 counterexample.  The curve `[-1, 0]` is strictly increasing, yet
`calculate_max_drawdown` raises `ZeroDivisionError` on it (the running peak
becomes 0) instead of returning 0: the claim's "for every equity curve" and
"any strictly increasing curve" fail. -/
theorem claim_C7_counterexample :
    calculate_max_drawdown [-1, 0] = .error () := by
  norm_num [calculate_max_drawdown, drawdownLoop, divE]

/-- C7 amended.  `calculate_max_drawdown` returns 0 for curves of
length < 2; on the example `[100000, 90000, 95000, 80000]` it returns 20;
and for every curve with a positive first element it tracks the running
peak, computes `(peak - value)/peak * 100` at each point, and returns the
maximum such value rounded to 2 decimals — in particular every strictly
increasing curve with a positive first element has drawdown 0.  (A curve
whose running peak reaches 0, such as `[-1, 0]` or any curve starting at 0,
raises `ZeroDivisionError` instead.) -/
theorem claim_C7_amended :
    (∀ curve : List ℚ, curve.length < 2 → calculate_max_drawdown curve = .ok 0) ∧
    calculate_max_drawdown [100000, 90000, 95000, 80000] = .ok 20 ∧
    (∀ (c : ℚ) (rest : List ℚ), 0 < c →
      calculate_max_drawdown (c :: rest) = .ok (drawdownSpec (c :: rest))) ∧
    (∀ (c : ℚ) (rest : List ℚ), 0 < c → List.Chain (· < ·) c rest →
      calculate_max_drawdown (c :: rest) = .ok 0) := by
  refine ⟨calculate_max_drawdown_short, ?_, calculate_max_drawdown_eq_spec, ?_⟩
  · have h20 : round2 ((20 : ℚ)) = 20 := by simpa using round2_intCast 20
    norm_num [calculate_max_drawdown, drawdownLoop, divE, h20]
  · intro c rest hc hchain
    unfold calculate_max_drawdown
    by_cases hlen : (c :: rest).length < 2
    · rw [if_pos hlen]
    · rw [if_neg hlen]
      have hloop0 : drawdownLoop c 0 (c :: rest) = .ok 0 := by
        have hfirst : drawdownLoop c 0 (c :: rest) = drawdownLoop c 0 rest := by
          simp [drawdownLoop, if_gt_eq_max, divE, hc.ne']
        rw [hfirst]
        exact drawdownLoop_chain rest c hc hchain
      simp [hloop0, round2_zero]

/-- Witness for C7's amended statement: the general positive-head equation
at the concrete curve `[10, 5]` (drawdown 50%). -/
theorem claim_C7_amended_witness :
    calculate_max_drawdown [10, 5] = .ok (drawdownSpec [10, 5]) :=
  claim_C7_amended.2.2.1 10 [5] (by norm_num)

/-- Decomposition of a successful `run_backtest`: the loop succeeded, the
drawdown succeeded, and the output is the loop's bets with the aggregated
performance. -/
lemma run_backtest_ok_elim {races : List Race} {runners : List Runner}
    {rules : StrategyRules} {sm : StakeManagement} {bank : ℚ} {rand : ℕ → ℚ}
    {bets : List Bet} {perf : StrategyPerformance}
    (h : run_backtest races runners rules sm bank rand = .ok (bets, perf)) :
    ∃ st max_dd,
      backtestLoop rules sm runners rand races ⟨[], [], bank⟩ = .ok st ∧
      calculate_max_drawdown (bank :: equityTail bank st.bets) = .ok max_dd ∧
      bets = st.bets ∧ perf = aggregatePerformance bank st max_dd := by
  unfold run_backtest at h
  cases hloop : backtestLoop rules sm runners rand races ⟨[], [], bank⟩ with
  | error e => simp [hloop] at h
  | ok st =>
    simp only [hloop] at h
    cases hdd : calculate_max_drawdown (bank :: equityTail bank st.bets) with
    | error e => simp [hdd] at h
    | ok max_dd =>
      simp only [hdd] at h
      injection h with h'
      rw [Prod.ext_iff] at h'
      exact ⟨st, max_dd, rfl, hdd, h'.1.symm, h'.2.symm⟩

/-- C5 counterexample.  The equity curve `[0, 1]` has a zero peak; the
drawdown computation raises `ZeroDivisionError` on it instead of
substituting 0, so with a zero initial bankroll (and hence a zero peak) the
metric computations can signal a division-by-zero error. -/
theorem claim_C5_counterexample :
    calculate_max_drawdown [0, 1] = .error () := by
  norm_num [calculate_max_drawdown, drawdownLoop, divE]

/-- C5 amended.  The guarded denominators never raise: the drawdown
never raises once the equity curve's first element (the initial bankroll)
is positive, the Sharpe computation substitutes 0 for samples smaller
than 2, the metric stage of `run_backtest` never raises when the initial
bankroll is positive, and with zero bets the win rate, ROI and Sharpe all
substitute 0.  (The unguarded peak division does raise on a zero peak, as
the counterexample shows.) -/
theorem claim_C5_amended :
    (∀ (c : ℚ) (rest : List ℚ), 0 < c →
      ∃ r, calculate_max_drawdown (c :: rest) = .ok r) ∧
    (∀ bets : List Bet, bets.length < 2 → calculate_sharpe bets = 0) ∧
    (∀ (races : List Race) (runners : List Runner) (rules : StrategyRules)
      (sm : StakeManagement) (bank : ℚ) (rand : ℕ → ℚ) (st : LoopState),
      0 < bank →
      backtestLoop rules sm runners rand races ⟨[], [], bank⟩ = .ok st →
      ∃ out, run_backtest races runners rules sm bank rand = .ok out) ∧
    (∀ (races : List Race) (runners : List Runner) (rules : StrategyRules)
      (sm : StakeManagement) (bank : ℚ) (rand : ℕ → ℚ) (bets : List Bet)
      (perf : StrategyPerformance),
      run_backtest races runners rules sm bank rand = .ok (bets, perf) →
      bets = [] → perf.win_rate = 0 ∧ perf.roi = 0 ∧ perf.sharpe = 0) := by
  have hdd : ∀ (c : ℚ) (rest : List ℚ), 0 < c →
      ∃ r, calculate_max_drawdown (c :: rest) = .ok r :=
    fun c rest hc => ⟨_, calculate_max_drawdown_eq_spec c rest hc⟩
  refine ⟨hdd, ?_, ?_, ?_⟩
  · intro bets hlen
    simp [calculate_sharpe, hlen]
  · intro races runners rules sm bank rand st hbank hloop
    obtain ⟨r, hr⟩ := hdd bank (equityTail bank st.bets) hbank
    refine ⟨(st.bets, aggregatePerformance bank st r), ?_⟩
    simp only [run_backtest, hloop, hr]
  · intro races runners rules sm bank rand bets perf h hnil
    obtain ⟨st, max_dd, _, _, hbets, hperf⟩ := run_backtest_ok_elim h
    have hstnil : st.bets = [] := by rw [← hbets, hnil]
    subst hperf
    refine ⟨?_, ?_, ?_⟩
    · simp [aggregatePerformance, hstnil]
    · simp [aggregatePerformance, hstnil]
    · simp [aggregatePerformance, hstnil, calculate_sharpe]

/-! ## C8: the daily performance chain -/

lemma buildDaily_map_date (dict : List (String × DayAgg)) :
    ∀ (dates : List String) (bank : ℚ),
      (buildDaily dict bank dates).map (fun e => e.date) = dates := by
  intro dates
  induction dates with
  | nil => intro bank; simp [buildDaily]
  | cons d rest ih => intro bank; simp [buildDaily, ih]

lemma buildDaily_head (dict : List (String × DayAgg)) (dates : List String)
    (bank : ℚ) :
    ∀ e, (buildDaily dict bank dates).head? = some e → e.starting_bank = bank := by
  cases dates with
  | nil => intro e h; simp [buildDaily] at h
  | cons d rest =>
    intro e h
    simp only [buildDaily, List.head?_cons, Option.some.injEq] at h
    rw [← h]

lemma buildDaily_chain (dict : List (String × DayAgg)) :
    ∀ (dates : List String) (bank : ℚ),
      List.Chain' (fun a b => a.ending_bank = b.starting_bank)
        (buildDaily dict bank dates) := by
  intro dates
  induction dates with
  | nil => intro bank; simp [buildDaily]
  | cons d rest ih =>
    intro bank
    simp only [buildDaily]
    rw [List.chain'_cons']
    refine ⟨?_, ih _⟩
    intro y hy
    have hh := buildDaily_head dict rest
      (bank + ((dict.lookup d).getD DayAgg.init).profit_loss) y
      (Option.mem_def.mp hy)
    rw [hh]

lemma buildDaily_ending (dict : List (String × DayAgg)) :
    ∀ (dates : List String) (bank : ℚ),
      ∀ e ∈ buildDaily dict bank dates,
        e.ending_bank = e.starting_bank + e.profit_loss := by
  intro dates
  induction dates with
  | nil => intro bank e he; simp [buildDaily] at he
  | cons d rest ih =>
    intro bank e he
    simp only [buildDaily, List.mem_cons] at he
    rcases he with he | he
    · subst he; rfl
    · exact ih _ e he

lemma dailyUpdate_keys (date : String) (stake liab pl : ℚ) (res : BetResult) :
    ∀ daily : List (String × DayAgg),
      (dailyUpdate daily date stake liab pl res).map Prod.fst =
        if date ∈ daily.map Prod.fst then daily.map Prod.fst
        else daily.map Prod.fst ++ [date] := by
  intro daily
  induction daily with
  | nil => simp [dailyUpdate]
  | cons p rest ih =>
    obtain ⟨d, agg⟩ := p
    by_cases hd : d = date
    · subst hd
      simp [dailyUpdate]
    · have hd' : ¬ date = d := fun h => hd h.symm
      simp only [dailyUpdate, if_neg hd, List.map_cons]
      rw [ih]
      by_cases hmem : date ∈ rest.map Prod.fst
      · simp [hmem, hd', List.mem_cons]
      · simp [hmem, hd', List.mem_cons]

lemma dailyUpdate_nodup (daily : List (String × DayAgg)) (date : String)
    (stake liab pl : ℚ) (res : BetResult)
    (h : (daily.map Prod.fst).Nodup) :
    ((dailyUpdate daily date stake liab pl res).map Prod.fst).Nodup := by
  rw [dailyUpdate_keys]
  split_ifs with hmem
  · exact h
  · simp [List.nodup_append, h, hmem]

/-- A successful `processRace` either leaves the state unchanged or places
one bet, updating the daily dict at the race's date. -/
lemma processRace_daily (rules : StrategyRules) (sm : StakeManagement)
    (runners : List Runner) (rand : ℕ → ℚ) (race : Race) {st st' : LoopState}
    (h : processRace rules sm runners rand race st = .ok st') :
    st'.daily = st.daily ∨
    ∃ stake liab pl res,
      st'.daily = dailyUpdate st.daily race.race_date stake liab pl res := by
  simp only [processRace] at h
  split at h
  · cases h
    exact .inl rfl
  · split at h
    · cases h
      exact .inl rfl
    · split at h
      · cases h
      · cases h
        exact .inl rfl
      · split at h
        · cases h
        · cases h
          exact .inr ⟨_, _, _, _, rfl⟩

lemma backtestLoop_daily_nodup (rules : StrategyRules) (sm : StakeManagement)
    (runners : List Runner) (rand : ℕ → ℚ) :
    ∀ (races : List Race) (st st' : LoopState),
      backtestLoop rules sm runners rand races st = .ok st' →
      (st.daily.map Prod.fst).Nodup → (st'.daily.map Prod.fst).Nodup := by
  intro races
  induction races with
  | nil =>
    intro st st' h hn
    simp only [backtestLoop] at h
    cases h
    exact hn
  | cons race rest ih =>
    intro st st' h hn
    simp only [backtestLoop] at h
    cases hp : processRace rules sm runners rand race st with
    | error e =>
      simp only [hp] at h
      cases h
    | ok st1 =>
      simp only [hp] at h
      refine ih st1 st' h ?_
      rcases processRace_daily rules sm runners rand race hp with heq | ⟨s, l, p, r, heq⟩
      · rw [heq]; exact hn
      · rw [heq]; exact dailyUpdate_nodup _ _ _ _ _ _ hn

/-- C8.  In every successful backtest, the daily performance entries are
strictly ordered by ascending date string, the first entry starts at the
initial bankroll, consecutive entries chain (`ending_bank` of one equals
`starting_bank` of the next), and each entry's `ending_bank` is its
`starting_bank` plus its profit/loss. -/
theorem claim_C8 (races : List Race) (runners : List Runner)
    (rules : StrategyRules) (sm : StakeManagement) (bank : ℚ) (rand : ℕ → ℚ)
    (bets : List Bet) (perf : StrategyPerformance)
    (h : run_backtest races runners rules sm bank rand = .ok (bets, perf)) :
    List.Pairwise (fun a b => a.date < b.date) perf.daily_performance ∧
    (∀ e, perf.daily_performance.head? = some e → e.starting_bank = bank) ∧
    List.Chain' (fun a b => a.ending_bank = b.starting_bank) perf.daily_performance ∧
    (∀ e ∈ perf.daily_performance,
      e.ending_bank = e.starting_bank + e.profit_loss) := by
  obtain ⟨st, mdd, hloop, hdd, hbets, hperf⟩ := run_backtest_ok_elim h
  have hdaily : perf.daily_performance =
      buildDaily st.daily bank
        (List.insertionSort (· ≤ ·) (st.daily.map Prod.fst)) := by
    rw [hperf]
    simp [aggregatePerformance]
  have hnodup : (st.daily.map Prod.fst).Nodup :=
    backtestLoop_daily_nodup rules sm runners rand races _ _ hloop (by simp)
  have hsorted : (List.insertionSort (· ≤ ·) (st.daily.map Prod.fst)).Sorted
      (· ≤ · : String → String → Prop) :=
    List.sorted_insertionSort _ _
  have hnd : (List.insertionSort (· ≤ ·) (st.daily.map Prod.fst)).Nodup :=
    ((List.perm_insertionSort _ _).nodup_iff).mpr hnodup
  have hlt : (List.insertionSort (· ≤ ·) (st.daily.map Prod.fst)).Sorted
      (· < · : String → String → Prop) := hsorted.lt_of_le hnd
  refine ⟨?_, ?_, ?_, ?_⟩
  · rw [hdaily]
    have hmap : List.Pairwise (· < ·)
        ((buildDaily st.daily bank
          (List.insertionSort (· ≤ ·) (st.daily.map Prod.fst))).map
            (fun e => e.date)) := by
      rw [buildDaily_map_date]
      exact hlt
    exact List.pairwise_map.mp hmap
  · rw [hdaily]
    exact buildDaily_head _ _ _
  · rw [hdaily]
    exact buildDaily_chain _ _ _
  · rw [hdaily]
    exact buildDaily_ending _ _ _

/-! ## C9: a backtest with no qualifying race -/

/-- When the selected favorite (if any) does not qualify, `processRace`
leaves the loop state untouched. -/
lemma processRace_skip (rules : StrategyRules) (sm : StakeManagement)
    (runners : List Runner) (rand : ℕ → ℚ) (race : Race) (st : LoopState)
    (H : ∀ favorite, selectedFavorite runners race = some favorite →
      (check_race_qualification rules race favorite).qualifies = false) :
    processRace rules sm runners rand race st = .ok st := by
  simp only [processRace]
  by_cases hemp : (runners.filter (fun r => r.race_id = race.id)).isEmpty
  · rw [if_pos hemp]
  · rw [if_neg hemp]
    cases hfav : (runners.filter (fun r => r.race_id = race.id)).filter
        (fun r => r.is_favorite) with
    | nil => rfl
    | cons favorite rest =>
      have hsel : selectedFavorite runners race = some favorite := by
        simp [selectedFavorite, hfav]
      have hq := H favorite hsel
      have heval : evaluate_race rules sm race favorite st.bankroll = .ok none := by
        simp only [evaluate_race, hq]
        simp
      simp only [heval]

/-- A loop over races none of which qualifies preserves the state. -/
lemma backtestLoop_skip (rules : StrategyRules) (sm : StakeManagement)
    (runners : List Runner) (rand : ℕ → ℚ) :
    ∀ races : List Race,
      (∀ race ∈ races, ∀ favorite,
        selectedFavorite runners race = some favorite →
        (check_race_qualification rules race favorite).qualifies = false) →
      ∀ st, backtestLoop rules sm runners rand races st = .ok st := by
  intro races
  induction races with
  | nil => intro _ st; rfl
  | cons race rest ih =>
    intro H st
    simp only [backtestLoop]
    rw [processRace_skip rules sm runners rand race st (H race (List.mem_cons_self _ _))]
    exact ih (fun r hr => H r (List.mem_cons_of_mem _ hr)) st

/-- C9.  A backtest in which no race qualifies places zero bets and
returns `total_bets = 0`, `win_rate = 0`, `roi = 0`, `max_drawdown = 0`,
`sharpe = 0`, empty daily performance and bet lists, and leaves the
bankroll at its initial value. -/
theorem claim_C9 (races : List Race) (runners : List Runner)
    (rules : StrategyRules) (sm : StakeManagement) (bank : ℚ) (rand : ℕ → ℚ)
    (H : ∀ race ∈ races, ∀ favorite,
      selectedFavorite runners race = some favorite →
      (check_race_qualification rules race favorite).qualifies = false) :
    ∃ perf, run_backtest races runners rules sm bank rand = .ok ([], perf) ∧
      perf.total_bets = 0 ∧ perf.win_rate = 0 ∧ perf.roi = 0 ∧
      perf.max_drawdown = 0 ∧ perf.sharpe = 0 ∧
      perf.daily_performance = [] ∧ perf.total_profit_loss = 0 ∧
      backtestLoop rules sm runners rand races ⟨[], [], bank⟩ =
        .ok ⟨[], [], bank⟩ := by
  have hloop := backtestLoop_skip rules sm runners rand races H ⟨[], [], bank⟩
  refine ⟨aggregatePerformance bank ⟨[], [], bank⟩ 0,
    ?_, ?_, ?_, ?_, ?_, ?_, ?_, ?_, hloop⟩
  · simp only [run_backtest, hloop]
    norm_num [equityTail, calculate_max_drawdown]
  · simp [aggregatePerformance]
  · simp [aggregatePerformance]
  · simp [aggregatePerformance]
  · simp [aggregatePerformance]
  · simp [aggregatePerformance, calculate_sharpe]
  · simp [aggregatePerformance, buildDaily, List.insertionSort]
  · simp [aggregatePerformance]

/-- Witness for C9: the empty race list (the hypothesis holds vacuously). -/
theorem claim_C9_witness :
    ∃ perf, run_backtest [] [] rulesEx smDefault 1000 (fun _ => 0) =
        .ok ([], perf) ∧
      perf.total_bets = 0 ∧ perf.win_rate = 0 ∧ perf.roi = 0 ∧
      perf.max_drawdown = 0 ∧ perf.sharpe = 0 ∧
      perf.daily_performance = [] ∧ perf.total_profit_loss = 0 ∧
      backtestLoop rulesEx smDefault [] (fun _ => 0) [] ⟨[], [], 1000⟩ =
        .ok ⟨[], [], 1000⟩ :=
  claim_C9 [] [] rulesEx smDefault 1000 (fun _ => 0)
    (fun race hr => absurd hr (List.not_mem_nil race))

lemma run_backtest_empty :
    run_backtest [] [] rulesEx smDefault 1000 (fun _ => 0) =
      .ok ([], perfEmpty) := by
  simp only [run_backtest, backtestLoop]
  norm_num [equityTail, calculate_max_drawdown, perfEmpty]

/-- Witness for C8 at the empty concrete run. -/
theorem claim_C8_witness :
    List.Pairwise (fun a b => a.date < b.date) perfEmpty.daily_performance ∧
    (∀ e, perfEmpty.daily_performance.head? = some e → e.starting_bank = 1000) ∧
    List.Chain' (fun a b => a.ending_bank = b.starting_bank)
      perfEmpty.daily_performance ∧
    (∀ e ∈ perfEmpty.daily_performance,
      e.ending_bank = e.starting_bank + e.profit_loss) :=
  claim_C8 [] [] rulesEx smDefault 1000 (fun _ => 0) [] perfEmpty
    run_backtest_empty

/-- Witness for C5's amended statement: the metric stage of the concrete
empty run succeeds. -/
theorem claim_C5_amended_witness :
    ∃ out, run_backtest [] [] rulesEx smDefault 1000 (fun _ => 0) = .ok out :=
  claim_C5_amended.2.2.1 [] [] rulesEx smDefault 1000 (fun _ => 0)
    ⟨[], [], 1000⟩ (by norm_num) rfl

end ChimeraLay
